import Mathlib

/-!
Shallow embedding of the resilient HTTP access layer of the jira-po-toolkit
repository: the bounded concurrent batch fetcher (`jira_async.py`), the
credential/trust resolver (`jira_config.py`), the retrying GET helper and the
paginated collection fetcher (`jpt.py`, `jira_metrics.py`).

Network interaction is modelled by an outcome oracle: a function giving, for
each attempt index, the status/body of the response received on that attempt
(or a timeout / network-error exception).  Every embedded function returns,
alongside its value, the number of attempts it consumed and the list of sleep
durations it performed, so that retry counts and backoff schedules are
observable.
-/

/-- Outcome of one HTTP attempt inside `fetch_single_epic` (jira_async.py):
a response with a status code and decoded JSON body, an `asyncio.TimeoutError`,
or an `aiohttp.ClientError`. -/
inductive AttemptOutcome (α : Type) where
  | resp (status : Nat) (body : α)
  | timeout
  | netErr
deriving DecidableEq, Repr

/-- The retry loop body of `fetch_single_epic` (jira_async.py lines 96-124).
`attempt` is the current index of `for attempt in range(3)`, `fuel` the number
of loop iterations left (`3 - attempt`).  Returns the value produced for the
key (`some body` on HTTP 200, `none` otherwise), the number of attempts
consumed, and the list of backoff sleeps (`2 ** attempt` seconds) performed. -/
def fetchSingleEpicGo {α : Type} (att : Nat → AttemptOutcome α) :
    Nat → Nat → Option α × Nat × List Nat
  | _, 0 => (none, 0, [])
  | attempt, fuel + 1 =>
    match att attempt with
    | .resp status body =>
      if status = 200 then (some body, 1, [])
      else if 500 ≤ status then
        if attempt < 2 then
          let r := fetchSingleEpicGo att (attempt + 1) fuel
          (r.1, r.2.1 + 1, (2 ^ attempt) :: r.2.2)
        else (none, 1, [])
      else (none, 1, [])
    | .timeout =>
      if attempt < 2 then
        let r := fetchSingleEpicGo att (attempt + 1) fuel
        (r.1, r.2.1 + 1, (2 ^ attempt) :: r.2.2)
      else (none, 1, [])
    | .netErr =>
      if attempt < 2 then
        let r := fetchSingleEpicGo att (attempt + 1) fuel
        (r.1, r.2.1 + 1, (2 ^ attempt) :: r.2.2)
      else (none, 1, [])

/-- `fetch_single_epic` (jira_async.py lines 91-124): up to 3 attempts,
starting at attempt 0.  Total: every control path of the source returns a
`(key, value)` pair, never propagating a per-item failure as an exception. -/
def fetch_single_epic {α : Type} (att : Nat → AttemptOutcome α) :
    Option α × Nat × List Nat :=
  fetchSingleEpicGo att 0 3

/-- One insertion into a Python `dict` built from a pair list: an existing key
has its value overwritten in place, a new key is appended. -/
def pyDictInsert {β : Type} (m : List (String × β)) (kv : String × β) :
    List (String × β) :=
  if kv.1 ∈ m.map Prod.fst then
    m.map fun p => if p.1 = kv.1 then (p.1, kv.2) else p
  else m ++ [kv]

/-- Python `dict(pairs)`: first-occurrence order, last value wins. -/
def pyDict {β : Type} (l : List (String × β)) : List (String × β) :=
  l.foldl pyDictInsert []

/-- `fetch_epic_batch_async` (jira_async.py lines 15-146): empty input returns
`{}` immediately; otherwise every key is fetched by `fetch_single_epic` (its
per-key attempt oracle is `att k`) and the resulting `(key, value)` pairs are
collected with `dict(results)`. -/
def fetch_epic_batch_async {α : Type} (att : String → Nat → AttemptOutcome α)
    (keys : List String) : List (String × Option α) :=
  if keys.isEmpty then []
  else pyDict (keys.map fun k => (k, (fetch_single_epic (att k)).1))

/-- `fetch_issues_batch_async` (jira_async.py lines 204-238) delegates to
`fetch_epic_batch_async`. -/
def fetch_issues_batch_async {α : Type} (att : String → Nat → AttemptOutcome α)
    (keys : List String) : List (String × Option α) :=
  fetch_epic_batch_async att keys

lemma pyDictInsert_not_mem {β : Type} (m : List (String × β)) (kv : String × β)
    (h : kv.1 ∉ m.map Prod.fst) : pyDictInsert m kv = m ++ [kv] := by
  simp [pyDictInsert, h]

lemma pyDict_foldl_nodup {β : Type} :
    ∀ (l acc : List (String × β)),
      (((acc ++ l).map Prod.fst).Nodup) →
      l.foldl pyDictInsert acc = acc ++ l := by
  intro l
  induction l with
  | nil => intro acc _; simp
  | cons kv l ih =>
    intro acc h
    have hmem : kv.1 ∉ acc.map Prod.fst := by
      simp only [List.map_append, List.map_cons] at h
      have := (List.nodup_append.mp h).2.2
      intro hc
      exact this hc (by simp)
    have hstep : pyDictInsert acc kv = acc ++ [kv] := pyDictInsert_not_mem acc kv hmem
    have h2 : (((acc ++ [kv]) ++ l).map Prod.fst).Nodup := by
      simpa [List.append_assoc] using h
    calc (kv :: l).foldl pyDictInsert acc
        = l.foldl pyDictInsert (pyDictInsert acc kv) := rfl
      _ = l.foldl pyDictInsert (acc ++ [kv]) := by rw [hstep]
      _ = (acc ++ [kv]) ++ l := ih (acc ++ [kv]) h2
      _ = acc ++ kv :: l := by simp

lemma pyDict_nodup {β : Type} (l : List (String × β))
    (h : (l.map Prod.fst).Nodup) : pyDict l = l := by
  have := pyDict_foldl_nodup l ([] : List (String × β)) (by simpa using h)
  simpa [pyDict] using this

lemma fetch_epic_batch_eq_map {α : Type} (att : String → Nat → AttemptOutcome α)
    (keys : List String) (h : keys.Nodup) :
    fetch_epic_batch_async att keys =
      keys.map fun k => (k, (fetch_single_epic (att k)).1) := by
  unfold fetch_epic_batch_async
  by_cases he : keys.isEmpty
  · simp [he, List.isEmpty_iff.mp he]
  · simp only [he, if_false]
    apply pyDict_nodup
    have : (keys.map fun k => ((k, (fetch_single_epic (att k)).1) : String × Option α)).map
        Prod.fst = keys := by
      simp [Function.comp_def]
    rw [this]
    exact h

/-- C1: for a batch of distinct input ids, the batch fetch returns one entry
per input id — the result has exactly N entries, M of which (the ids whose
per-item fetch exhausts its retries or hits a client error) carry the
absent-marker `none` and the remaining N−M carry decoded payloads; the
embedded function is total, so no per-item failure escapes as an exception. -/
theorem fetch_epic_batch_total_partition {α : Type}
    (att : String → Nat → AttemptOutcome α) (keys : List String)
    (h : keys.Nodup) :
    (fetch_epic_batch_async att keys).map Prod.fst = keys ∧
    (fetch_epic_batch_async att keys).length = keys.length ∧
    ((fetch_epic_batch_async att keys).filter fun p => p.2.isNone).length =
      (keys.filter fun k => (fetch_single_epic (att k)).1.isNone).length ∧
    ((fetch_epic_batch_async att keys).filter fun p => p.2.isSome).length =
      (keys.filter fun k => (fetch_single_epic (att k)).1.isSome).length := by
  have heq := fetch_epic_batch_eq_map att keys h
  rw [heq]
  refine ⟨by simp [Function.comp_def], by simp, ?_, ?_⟩
  · rw [List.filter_map]
    simp [Function.comp_def]
  · rw [List.filter_map]
    simp [Function.comp_def]

/-- Witness for C1: three keys, the middle one failing permanently with 503
on every attempt, yields three entries with one absent-marker. -/
theorem fetch_epic_batch_total_partition_witness :
    (["A", "B", "C"] : List String).Nodup ∧
    (fetch_epic_batch_async
        (fun k _ => if k = "B" then AttemptOutcome.resp 503 0 else AttemptOutcome.resp 200 7)
        ["A", "B", "C"]).length = 3 := by
  refine ⟨by decide, ?_⟩
  have := fetch_epic_batch_total_partition
    (fun k _ => if k = "B" then AttemptOutcome.resp 503 0 else AttemptOutcome.resp 200 7)
    ["A", "B", "C"] (by decide)
  simpa using this.2.1

/-- Outcome of one HTTP attempt inside `jira_get` (jpt.py): a response with a
status code and body, or a `requests.exceptions.RequestException`. -/
inductive GetOutcome (α : Type) where
  | resp (status : Nat) (body : α)
  | exc
deriving DecidableEq, Repr

/-- What `jira_get` (jpt.py) does for the caller: return a response, raise via
`resp.raise_for_status()` on the final 5xx attempt, re-raise the final network
exception, or hit the terminal `raise RuntimeError` line. -/
inductive JiraGetResult (α : Type) where
  | returned (status : Nat) (body : α)
  | raisedForStatus (status : Nat)
  | raisedException
  | raisedRuntime
deriving DecidableEq, Repr

/-- The retry loop of `jira_get` (jpt.py lines 48-71).  `attempt` is the index
of `for attempt in range(1, max_retries + 1)` and `fuel` the number of loop
iterations left.  Returns the result, the number of attempts issued, and the
list of `time.sleep(backoff * attempt)` durations performed. -/
def jiraGetGo {α : Type} (att : Nat → GetOutcome α) (maxRetries : Nat)
    (backoff : ℚ) : Nat → Nat → JiraGetResult α × Nat × List ℚ
  | _, 0 => (.raisedRuntime, 0, [])
  | attempt, fuel + 1 =>
    match att attempt with
    | .resp s b =>
      if 500 ≤ s ∧ s < 600 then
        if attempt = maxRetries then (.raisedForStatus s, 1, [])
        else
          let r := jiraGetGo att maxRetries backoff (attempt + 1) fuel
          (r.1, r.2.1 + 1, (backoff * (attempt : ℚ)) :: r.2.2)
      else (.returned s b, 1, [])
    | .exc =>
      if attempt = maxRetries then (.raisedException, 1, [])
      else
        let r := jiraGetGo att maxRetries backoff (attempt + 1) fuel
        (r.1, r.2.1 + 1, (backoff * (attempt : ℚ)) :: r.2.2)

/-- `jira_get` (jpt.py lines 48-71): attempts run from 1 to `max_retries`. -/
def jira_get {α : Type} (att : Nat → GetOutcome α) (maxRetries : Nat)
    (backoff : ℚ) : JiraGetResult α × Nat × List ℚ :=
  jiraGetGo att maxRetries backoff 1 maxRetries

/-- An attempt outcome that makes `jira_get` retry: a 5xx response or a
network-level exception. -/
def retryTrigger {α : Type} : GetOutcome α → Prop
  | .resp s _ => 500 ≤ s ∧ s < 600
  | .exc => True

lemma jiraGetGo_success {α : Type} (att : Nat → GetOutcome α)
    (maxRetries : Nat) (backoff : ℚ) (k sk : Nat) (bk : α)
    (hk : k ≤ maxRetries) (hsk : ¬(500 ≤ sk ∧ sk < 600))
    (hkatt : att k = GetOutcome.resp sk bk) :
    ∀ fuel attempt, attempt + fuel = maxRetries + 1 → attempt ≤ k →
      (∀ i, attempt ≤ i → i < k → ∃ s b,
        att i = GetOutcome.resp s b ∧ 500 ≤ s ∧ s < 600) →
      jiraGetGo att maxRetries backoff attempt fuel =
        (JiraGetResult.returned sk bk, k + 1 - attempt,
          (List.range' attempt (k - attempt)).map (fun i : Nat => backoff * (i : ℚ))) := by
  intro fuel
  induction fuel with
  | zero =>
    intro attempt h hak _
    omega
  | succ f ih =>
    intro attempt h hak hfail
    by_cases hek : attempt = k
    · subst hek
      simp [jiraGetGo, hkatt, hsk]
    · have hlt : attempt < k := lt_of_le_of_ne hak hek
      obtain ⟨s, b, hatt, hs5⟩ := hfail attempt le_rfl hlt
      have hne : attempt ≠ maxRetries := by omega
      have hrec := ih (attempt + 1) (by omega) (by omega)
        (fun i h1 h2 => hfail i (by omega) h2)
      have hrange : List.range' attempt (k - attempt) =
          attempt :: List.range' (attempt + 1) (k - (attempt + 1)) := by
        have : k - attempt = (k - (attempt + 1)) + 1 := by omega
        rw [this, List.range'_succ]
      simp only [jiraGetGo, hatt, if_pos hs5, if_neg hne, hrec, hrange, List.map_cons]
      simp only [Prod.mk.injEq]
      exact ⟨by simp, by omega, by simp⟩

lemma jiraGetGo_exhaust {α : Type} (att : Nat → GetOutcome α)
    (maxRetries : Nat) (backoff : ℚ) :
    ∀ fuel attempt, attempt + fuel = maxRetries + 1 → attempt ≤ maxRetries →
      (∀ i, attempt ≤ i → i ≤ maxRetries → retryTrigger (att i)) →
      jiraGetGo att maxRetries backoff attempt fuel =
        ((match att maxRetries with
          | GetOutcome.resp s _ => JiraGetResult.raisedForStatus s
          | GetOutcome.exc => JiraGetResult.raisedException),
         maxRetries + 1 - attempt,
         (List.range' attempt (maxRetries - attempt)).map (fun i : Nat => backoff * (i : ℚ))) := by
  intro fuel
  induction fuel with
  | zero =>
    intro attempt h ham _
    omega
  | succ f ih =>
    intro attempt h ham hall
    by_cases hlast : attempt = maxRetries
    · subst hlast
      have htr := hall attempt le_rfl le_rfl
      cases hatt : att attempt with
      | resp s b =>
        have h5 : 500 ≤ s ∧ s < 600 := by rw [hatt] at htr; exact htr
        simp [jiraGetGo, hatt, h5]
      | exc =>
        simp [jiraGetGo, hatt]
    · have hlt : attempt < maxRetries := lt_of_le_of_ne ham hlast
      have htr := hall attempt le_rfl (by omega)
      have hrec := ih (attempt + 1) (by omega) (by omega)
        (fun i h1 h2 => hall i (by omega) h2)
      have hrange : List.range' attempt (maxRetries - attempt) =
          attempt :: List.range' (attempt + 1) (maxRetries - (attempt + 1)) := by
        have : maxRetries - attempt = (maxRetries - (attempt + 1)) + 1 := by omega
        rw [this, List.range'_succ]
      cases hatt : att attempt with
      | resp s b =>
        rw [hatt] at htr
        simp only [jiraGetGo, hatt, if_pos htr, if_neg hlast, hrec, hrange, List.map_cons]
        have harith : maxRetries + 1 - (attempt + 1) + 1 = maxRetries + 1 - attempt := by
          omega
        rw [harith, if_pos (show 500 ≤ s ∧ s < 600 from htr)]
      | exc =>
        simp only [jiraGetGo, hatt, if_neg hlast, hrec, hrange, List.map_cons]
        have harith : maxRetries + 1 - (attempt + 1) + 1 = maxRetries + 1 - attempt := by
          omega
        rw [harith]

lemma jira_get_first_attempt_return {α : Type} (att : Nat → GetOutcome α)
    (maxRetries : Nat) (backoff : ℚ) (s : Nat) (b : α) (hm : 1 ≤ maxRetries)
    (h1 : att 1 = GetOutcome.resp s b) (hs : ¬(500 ≤ s ∧ s < 600)) :
    jira_get att maxRetries backoff =
      (JiraGetResult.returned s b, 1, ([] : List ℚ)) := by
  have h := jiraGetGo_success att maxRetries backoff 1 s b hm hs h1
    maxRetries 1 (by omega) le_rfl (fun i hi1 hi2 => by omega)
  unfold jira_get
  rw [h]
  simp

/-- Attempt script for the session: HTTP 429 on attempt 1, HTTP 200 later. -/
def att429Then200 : Nat → GetOutcome Nat := fun i =>
  if i = 1 then GetOutcome.resp 429 7 else GetOutcome.resp 200 9

/-- Attempt script: every attempt receives HTTP 500. -/
def att500Always : Nat → GetOutcome Nat := fun _ => GetOutcome.resp 500 0

/-- Attempt script: HTTP 503 on attempts 1 and 2, HTTP 200 on attempt 3. -/
def att503Then200 : Nat → GetOutcome Nat := fun i =>
  if i = 3 then GetOutcome.resp 200 11 else GetOutcome.resp 503 0

/-- C3 counterexample: `jira_get` retries only 5xx statuses, so a request that
receives 429 on attempt 1 (with a 200 available on attempt 2) is NOT retried:
the 429 response itself is returned after exactly one attempt, not the
successful response after two. -/
theorem jira_get_429_not_retried_cex :
    jira_get att429Then200 4 1 =
      (JiraGetResult.returned 429 7, 1, ([] : List ℚ)) := by
  decide

/-- C3 amended: for the retryable statuses 500, 502, 503, 504 (any 5xx),
a request through `jira_get` that receives that status on attempts 1..k−1 and
succeeds on attempt k ≤ max_retries returns the successful response and issues
exactly k attempts; a 429 response, by contrast, is returned immediately after
a single attempt. -/
theorem jira_get_5xx_success_k_attempts {α : Type} (att : Nat → GetOutcome α)
    (maxRetries k s : Nat) (backoff : ℚ) (body : α)
    (hs : s = 500 ∨ s = 502 ∨ s = 503 ∨ s = 504)
    (hk1 : 1 ≤ k) (hk : k ≤ maxRetries)
    (hfail : ∀ i, 1 ≤ i → i < k → ∃ b, att i = GetOutcome.resp s b)
    (hsucc : att k = GetOutcome.resp 200 body) :
    ((jira_get att maxRetries backoff).1 = JiraGetResult.returned 200 body ∧
     (jira_get att maxRetries backoff).2.1 = k) ∧
    ∀ (att2 : Nat → GetOutcome α) (b429 : α),
      att2 1 = GetOutcome.resp 429 b429 →
      (jira_get att2 maxRetries backoff).1 = JiraGetResult.returned 429 b429 ∧
      (jira_get att2 maxRetries backoff).2.1 = 1 := by
  have h5 : 500 ≤ s ∧ s < 600 := by rcases hs with h | h | h | h <;> omega
  constructor
  · have hfail2 : ∀ i, 1 ≤ i → i < k → ∃ s2 b2,
        att i = GetOutcome.resp s2 b2 ∧ 500 ≤ s2 ∧ s2 < 600 := by
      intro i hi1 hi2
      obtain ⟨b2, hb2⟩ := hfail i hi1 hi2
      exact ⟨s, b2, hb2, h5⟩
    have h := jiraGetGo_success att maxRetries backoff k 200 body hk (by omega)
      hsucc maxRetries 1 (by omega) hk1 hfail2
    unfold jira_get
    rw [h]
    exact ⟨rfl, by simp⟩
  · intro att2 b429 h429
    rw [jira_get_first_attempt_return att2 maxRetries backoff 429 b429
      (by omega) h429 (by omega)]
    exact ⟨rfl, rfl⟩

/-- Witness for C3 amended: 503 on attempts 1-2 and 200 on attempt 3 yields
the successful response after exactly 3 attempts. -/
theorem jira_get_5xx_success_k_attempts_witness :
    (jira_get att503Then200 4 1).1 = JiraGetResult.returned 200 11 ∧
    (jira_get att503Then200 4 1).2.1 = 3 :=
  (jira_get_5xx_success_k_attempts att503Then200 4 3 503 1 11
    (by norm_num) (by norm_num) (by norm_num)
    (fun i hi1 hi2 => ⟨0, by
      have hne : i ≠ 3 := by omega
      simp [att503Then200, hne]⟩)
    (by simp [att503Then200])).1

/-- C4: a 4xx status other than 429 received on the first attempt is returned
unmodified by `jira_get` after exactly one attempt with no sleeps, and a
batch-fetch item (`fetch_single_epic`) receiving such a status short-circuits
to the absent-marker `none` after exactly one attempt, consuming none of its
remaining attempts and performing no backoff sleep. -/
theorem client_errors_single_attempt {α β : Type}
    (att : Nat → GetOutcome α) (maxRetries : Nat) (backoff : ℚ) (s : Nat)
    (b : α) (hs1 : 400 ≤ s) (hs2 : s < 500) (hs3 : s ≠ 429)
    (hm : 1 ≤ maxRetries) (h1 : att 1 = GetOutcome.resp s b)
    (eatt : Nat → AttemptOutcome β) (es : Nat) (eb : β)
    (hes1 : 400 ≤ es) (hes2 : es < 500) (hes3 : es ≠ 429)
    (he : eatt 0 = AttemptOutcome.resp es eb) :
    jira_get att maxRetries backoff =
      (JiraGetResult.returned s b, 1, ([] : List ℚ)) ∧
    fetch_single_epic eatt = (none, 1, ([] : List Nat)) := by
  constructor
  · exact jira_get_first_attempt_return att maxRetries backoff s b hm h1 (by omega)
  · have h200 : ¬ es = 200 := by omega
    have h500 : ¬ 500 ≤ es := by omega
    simp [fetch_single_epic, fetchSingleEpicGo, he, h200, h500]

/-- Witness for C4: a 404 on the first attempt is returned after one attempt
by `jira_get` and maps to the absent-marker after one attempt in the batch
fetcher. -/
theorem client_errors_single_attempt_witness :
    jira_get (fun _ => GetOutcome.resp 404 3) 4 1 =
      (JiraGetResult.returned 404 3, 1, ([] : List ℚ)) ∧
    fetch_single_epic (fun _ => AttemptOutcome.resp 404 5) =
      (none, 1, ([] : List Nat)) :=
  client_errors_single_attempt (fun _ => GetOutcome.resp 404 3) 4 1 404 3
    (by norm_num) (by norm_num) (by norm_num) (by norm_num) rfl
    (fun _ => AttemptOutcome.resp 404 5) 404 5
    (by norm_num) (by norm_num) (by norm_num) rfl

/-- C5 counterexample: with backoff_base_seconds = 1 and four attempts all
receiving HTTP 500, `jira_get` sleeps [1, 2, 3] seconds (linear
`backoff * attempt`), not the exponential schedule
[1·2⁰, 1·2¹, 1·2²] = [1, 2, 4] the claim states. -/
theorem jira_get_backoff_linear_cex :
    (jira_get att500Always 4 1).2.2 = [(1 : ℚ), 2, 3] ∧
    (jira_get att500Always 4 1).2.2 ≠ [(1 : ℚ), 2, 4] := by
  have h := jiraGetGo_exhaust att500Always 4 1 4 1 (by norm_num) (by norm_num)
    (fun i _ _ => ⟨le_rfl, by norm_num⟩)
  unfold jira_get
  rw [h]
  have hr : List.range' 1 (4 - 1) = [1, 2, 3] := rfl
  constructor
  · simp [hr]
  · simp [hr]

/-- C5 amended: between consecutive attempts of a retried request, `jira_get`
sleeps backoff_base_seconds * attempt seconds (a linear schedule: backoff,
2·backoff, ..., up to (max_retries−1)·backoff when every attempt triggers a
retry), not an exponential one. -/
theorem jira_get_backoff_linear {α : Type} (att : Nat → GetOutcome α)
    (maxRetries : Nat) (backoff : ℚ) (hm : 1 ≤ maxRetries)
    (hall : ∀ i, 1 ≤ i → i ≤ maxRetries → retryTrigger (att i)) :
    (jira_get att maxRetries backoff).2.2 =
      (List.range' 1 (maxRetries - 1)).map (fun i : Nat => backoff * (i : ℚ)) := by
  have h := jiraGetGo_exhaust att maxRetries backoff maxRetries 1 (by omega) hm hall
  unfold jira_get
  rw [h]

/-- Witness for C5 amended: four attempts of HTTP 500 with backoff 1 give the
linear sleep schedule over attempts 1..3. -/
theorem jira_get_backoff_linear_witness :
    (jira_get att500Always 4 1).2.2 =
      (List.range' 1 (4 - 1)).map (fun i : Nat => (1 : ℚ) * (i : ℚ)) :=
  jira_get_backoff_linear att500Always 4 1 (by norm_num)
    (fun i _ _ => ⟨le_rfl, by norm_num⟩)

/-- C6 counterexample: when every attempt receives HTTP 500, `jira_get` does
not return the last response to the caller — it raises itself, via
`resp.raise_for_status()` on the final attempt. -/
theorem jira_get_exhaustion_raises_cex :
    (jira_get att500Always 4 1).1 = JiraGetResult.raisedForStatus 500 := by
  decide

/-- C6 amended: when all retries are exhausted, `jira_get` itself raises
rather than returning the last response: it calls `raise_for_status()` on the
final 5xx response and re-raises the final network exception, after issuing
exactly max_retries attempts.  (The urllib3-configured session of
`get_jira_session` is instead built with raise_on_status=False.) -/
theorem jira_get_exhaustion_raises {α : Type} (att : Nat → GetOutcome α)
    (maxRetries : Nat) (backoff : ℚ) (hm : 1 ≤ maxRetries)
    (hall : ∀ i, 1 ≤ i → i ≤ maxRetries → retryTrigger (att i)) :
    (jira_get att maxRetries backoff).1 =
      (match att maxRetries with
       | GetOutcome.resp s _ => JiraGetResult.raisedForStatus s
       | GetOutcome.exc => JiraGetResult.raisedException) ∧
    (jira_get att maxRetries backoff).2.1 = maxRetries := by
  have h := jiraGetGo_exhaust att maxRetries backoff maxRetries 1 (by omega) hm hall
  unfold jira_get
  rw [h]
  exact ⟨rfl, by simp⟩

/-- Witness for C6 amended: four attempts of HTTP 500 end in a raise carrying
status 500 after 4 attempts. -/
theorem jira_get_exhaustion_raises_witness :
    (jira_get att500Always 4 1).1 = JiraGetResult.raisedForStatus 500 ∧
    (jira_get att500Always 4 1).2.1 = 4 :=
  jira_get_exhaustion_raises att500Always 4 1 (by norm_num)
    (fun i _ _ => ⟨le_rfl, by norm_num⟩)

/-- Trust setting returned by `get_ssl_verify` (jira_config.py): `True`
(standard verification) or a custom CA-bundle path. -/
inductive SslSetting where
  | standard
  | caPath (p : String)
deriving DecidableEq, Repr

/-- The boolean-false token set rejected by `get_ssl_verify` (line 89). -/
def falseTokens : List String := ["false", "0", "no", "off", "disabled"]

/-- The boolean-true token set accepted as standard verification (line 102). -/
def trueTokens : List String := ["true", "1", "yes", "on", "enabled"]

/-- The `ValueError` message raised for explicit disablement (lines 90-99). -/
def sslDisabledMessage : String :=
  "SSL verification cannot be disabled for security reasons.\n\nOptions:\n  1. Set JT_SSL_VERIFY=true for standard verification\n  2. Set JT_SSL_VERIFY=/path/to/cert.pem for custom CA bundle (e.g., Zscaler)\n  3. Remove JT_SSL_VERIFY to use default verification\n\nUpdate your .jira_environment file or environment variable accordingly."

/-- Python `str.strip()` on ASCII whitespace. -/
def pyStrip (s : String) : String :=
  String.mk (((s.data.dropWhile (fun c => c.isWhitespace)).reverse.dropWhile
    (fun c => c.isWhitespace)).reverse)

/-- Python `str.lower()` on an ASCII character. -/
def pyLowerChar (c : Char) : Char :=
  if ('A' ≤ c ∧ c ≤ 'Z') then Char.ofNat (c.toNat + 32) else c

/-- Python `str.lower()` on an ASCII string. -/
def pyLower (s : String) : String :=
  String.mk (s.data.map pyLowerChar)

/-- Python truthiness of an optional string: `None` and `""` are falsy. -/
def falsyOpt : Option String → Bool
  | none => true
  | some s => s.isEmpty

/-- The layered lookup of jira_config.py lines 70-83: `JT_SSL_VERIFY` from the
process environment, else from `.jira_environment`, else `REQUESTS_CA_BUNDLE`;
a falsy result at every layer means the default (standard verification). -/
def effectiveOverride (envVar fileVar caBundle : Option String) : Option String :=
  let v1 := envVar
  let v2 := if falsyOpt v1 then fileVar else v1
  let v3 := if falsyOpt v2 then caBundle else v2
  if falsyOpt v3 then none else v3

/-- Filesystem facts used by the CA-path branch of `get_ssl_verify` (lines
105-117): `expanduser`, absoluteness, joining onto `BASE_DIR`, existence,
and `resolve()`. -/
structure FsModel where
  expandUser : String → String
  isAbsolute : String → Bool
  baseDirJoin : String → String
  pathExists : String → Bool
  resolvePath : String → String

/-- `get_ssl_verify` (jira_config.py lines 53-117).  `Except.error` is the
raised `ValueError`; the nonexistent-path branch prints a warning and falls
back to standard verification (the recoverable-degradation path). -/
def get_ssl_verify (fs : FsModel) (envVar fileVar caBundle : Option String) :
    Except String SslSetting :=
  match effectiveOverride envVar fileVar caBundle with
  | none => .ok .standard
  | some v =>
    let lower := pyLower (pyStrip v)
    if lower ∈ falseTokens then .error sslDisabledMessage
    else if lower ∈ trueTokens then .ok .standard
    else
      let p0 := fs.expandUser v
      let certPath := if fs.isAbsolute p0 then p0 else fs.baseDirJoin p0
      if fs.pathExists certPath then .ok (.caPath (fs.resolvePath certPath))
      else .ok .standard

/-- `sub` occurs as a contiguous substring of `msg`. -/
def containsSub (msg sub : String) : Bool :=
  msg.data.tails.any fun t => sub.data.isPrefixOf t

/-- The message lists the three supported alternatives: standard verification,
a custom CA-bundle path, and unsetting the variable. -/
def listsAlternatives (msg : String) : Bool :=
  containsSub msg "1. Set JT_SSL_VERIFY=true" &&
  containsSub msg "2. Set JT_SSL_VERIFY=/path/to/cert.pem" &&
  containsSub msg "3. Remove JT_SSL_VERIFY"

/-- C2: whenever the resolved trust-override value has a stripped lowercase
form in the boolean-false token set, `get_ssl_verify` raises the
`ValueError` (the spec's ConfigurationError) whose message lists the three
supported alternatives, and it returns no trust setting at all on that path. -/
theorem get_ssl_verify_rejects_disable (fs : FsModel)
    (envVar fileVar caBundle : Option String) (v : String)
    (hres : effectiveOverride envVar fileVar caBundle = some v)
    (htok : pyLower (pyStrip v) ∈ falseTokens) :
    get_ssl_verify fs envVar fileVar caBundle = Except.error sslDisabledMessage ∧
    listsAlternatives sslDisabledMessage = true ∧
    ∀ r : SslSetting, get_ssl_verify fs envVar fileVar caBundle ≠ Except.ok r := by
  have h1 : get_ssl_verify fs envVar fileVar caBundle =
      Except.error sslDisabledMessage := by
    unfold get_ssl_verify
    rw [hres]
    simp [htok]
  refine ⟨h1, by decide, ?_⟩
  intro r
  simp [h1]

/-- Witness for C2: the literal value "false" supplied through the
highest-priority layer is rejected with the documented message. -/
theorem get_ssl_verify_rejects_disable_witness :
    effectiveOverride (some "false") none none = some "false" ∧
    pyLower (pyStrip "false") ∈ falseTokens ∧
    get_ssl_verify ⟨id, fun _ => true, id, fun _ => false, id⟩
      (some "false") none none = Except.error sslDisabledMessage := by
  refine ⟨by decide, by decide, ?_⟩
  exact (get_ssl_verify_rejects_disable ⟨id, fun _ => true, id, fun _ => false, id⟩
    (some "false") none none "false" (by decide) (by decide)).1

/-- The pagination loop shared by `get_issues` (jpt.py lines 140-157, page
size fixed at 50) and `get_sprint_issues` (jira_metrics.py lines 58-72,
parameterized page size): request the page at offset `startAt`, append
`data["issues"]` to the accumulator, stop when
`startAt + pageSize ≥ data["total"]`, else advance `startAt` by `pageSize`.
`srv` maps an offset to the page's item list and the declared total; `fuel`
bounds the unbounded `while True` (`none` = the loop did not finish within
`fuel` iterations).  Returns the accumulated items and the list of offsets
requested, in order. -/
def getIssuesGo {α : Type} (srv : Nat → List α × Nat) (pageSize : Nat) :
    Nat → Nat → List α → Option (List α × List Nat)
  | 0, _, _ => none
  | fuel + 1, startAt, acc =>
    let page := srv startAt
    let acc2 := acc ++ page.1
    if page.2 ≤ startAt + pageSize then some (acc2, [startAt])
    else
      match getIssuesGo srv pageSize fuel (startAt + pageSize) acc2 with
      | none => none
      | some (res, reqs) => some (res, startAt :: reqs)

/-- `get_issues` (jpt.py lines 140-157): page size 50, starting offset 0. -/
def get_issues {α : Type} (srv : Nat → List α × Nat) (fuel : Nat) :
    Option (List α × List Nat) :=
  getIssuesGo srv 50 fuel 0 []

/-- `get_sprint_issues` (jira_metrics.py lines 43-72): same loop with a
parameterized page size. -/
def get_sprint_issues {α : Type} (srv : Nat → List α × Nat)
    (pageSize fuel : Nat) : Option (List α × List Nat) :=
  getIssuesGo srv pageSize fuel 0 []

/-- A consistent server holding the fixed collection `items`: the page at
`startAt` is `items[startAt : startAt + pageSize]` and the declared total is
the true length. -/
def honestServer {α : Type} (items : List α) (pageSize : Nat) :
    Nat → List α × Nat :=
  fun startAt => ((items.drop startAt).take pageSize, items.length)

/-- A server with total 100 that returns a short page of 20 items at offset 0
and 5 items at offset 50. -/
def shortPageServer : Nat → List Nat × Nat := fun startAt =>
  if startAt = 0 then (List.range 20, 100)
  else if startAt = 50 then (List.range 5, 100)
  else ([], 100)

/-- C7 counterexample: against `shortPageServer` the fetcher issues requests
at offsets 0 and 50 (advancing by page_size 50 even though only 20 items were
received at offset 0 — advancing by items received would request offset 20
next), collects 25 items, and stops after the offset-50 page although
start_at + received = 50 + 5 = 55 < total = 100, refuting both the
"advances start_at by the number of items received" and the "stops exactly
when start_at + received ≥ total" parts of the claim. -/
theorem get_issues_advance_by_received_cex :
    (get_issues shortPageServer 10).map (fun r => (r.1.length, r.2)) =
      some (25, [0, 50]) ∧
    ¬ (50 + 5 ≥ 100) := by
  decide

lemma getIssuesGo_terminates {α : Type} (srv : Nat → List α × Nat)
    (t pageSize : Nat) (hconst : ∀ s, (srv s).2 = t) :
    ∀ fuel startAt acc, 0 < fuel → t ≤ startAt + fuel * pageSize →
      getIssuesGo srv pageSize fuel startAt acc ≠ none := by
  intro fuel
  induction fuel with
  | zero => intro startAt acc h0 _; omega
  | succ f ih =>
    intro startAt acc _ ht
    rw [Nat.succ_mul] at ht
    simp only [getIssuesGo]
    by_cases hstop : (srv startAt).2 ≤ startAt + pageSize
    · simp [hstop]
    · have htt : (srv startAt).2 = t := hconst startAt
      have hf : 0 < f := by
        rcases Nat.eq_zero_or_pos f with h | h
        · subst h; simp at ht; omega
        · exact h
      have hrec := ih (startAt + pageSize) (acc ++ (srv startAt).1) hf (by omega)
      simp only [hstop, if_false]
      cases hr : getIssuesGo srv pageSize f (startAt + pageSize)
          (acc ++ (srv startAt).1) with
      | none => exact absurd hr hrec
      | some val => simp [hr]

/-- C7 amended: the fetcher advances `start_at` by `page_size` (not by the
number of items received) and stops when `start_at + page_size ≥ total`; it
terminates for every server with a constant declared total, even when a
non-final page is short; and for a consistent collection of total=75 with
page_size=50 it issues exactly 2 requests (offsets 0 and 50) and returns all
75 items in server order. -/
theorem get_issues_pagination_amended {α : Type} (srv : Nat → List α × Nat)
    (t pageSize fuel startAt : Nat) (hconst : ∀ s, (srv s).2 = t)
    (hf : 0 < fuel) (ht : t ≤ startAt + fuel * pageSize) :
    getIssuesGo srv pageSize fuel startAt [] ≠ none ∧
    get_issues (honestServer (List.range 75) 50) 2 =
      some (List.range 75, [0, 50]) := by
  exact ⟨getIssuesGo_terminates srv t pageSize hconst fuel startAt [] hf ht,
    by decide⟩

/-- Witness for C7 amended: the 75-item collection paged at 50 finishes
within 2 iterations. -/
theorem get_issues_pagination_amended_witness :
    getIssuesGo (honestServer (List.range 75) 50) 50 2 0 [] ≠ none :=
  (get_issues_pagination_amended (honestServer (List.range 75) 50) 75 50 2 0
    (fun s => by simp [honestServer]) (by norm_num) (by norm_num)).1

/-- State of one per-id fetch task in `fetch_epic_batch_async` (jira_async.py
lines 91-124): waiting to enter `async with semaphore`, holding the semaphore
with its HTTP request in flight, holding it during a backoff sleep, or done
(semaphore released). -/
inductive TaskState where
  | pending
  | requesting
  | sleeping
  | done
deriving DecidableEq, Repr

/-- A task currently holding the admission semaphore. -/
def holdsSem : TaskState → Bool
  | .requesting => true
  | .sleeping => true
  | _ => false

/-- A task with an HTTP request currently in flight. -/
def inFlight : TaskState → Bool
  | .requesting => true
  | _ => false

/-- Interleaving semantics of the semaphore-guarded tasks (jira_async.py
lines 86, 96, 99, 106, 142-143): a pending task enters the semaphore only
while fewer than `limit` tasks hold it (`asyncio.Semaphore(max_concurrent)`);
a requester may move to backoff sleep and back (retries happen inside the
`async with` block); a requester may finish, releasing the semaphore. -/
inductive SemStep (limit : Nat) : List TaskState → List TaskState → Prop
  | start (ts : List TaskState) (i : Nat) :
      ts[i]? = some TaskState.pending → ts.countP holdsSem < limit →
      SemStep limit ts (ts.set i TaskState.requesting)
  | toSleep (ts : List TaskState) (i : Nat) :
      ts[i]? = some TaskState.requesting →
      SemStep limit ts (ts.set i TaskState.sleeping)
  | wake (ts : List TaskState) (i : Nat) :
      ts[i]? = some TaskState.sleeping →
      SemStep limit ts (ts.set i TaskState.requesting)
  | finish (ts : List TaskState) (i : Nat) :
      ts[i]? = some TaskState.requesting →
      SemStep limit ts (ts.set i TaskState.done)

/-- States reachable by a batch of `n` tasks all starting before the
semaphore, under admission bound `limit`. -/
inductive SemReach (limit n : Nat) : List TaskState → Prop
  | init : SemReach limit n (List.replicate n TaskState.pending)
  | step (ts ts' : List TaskState) :
      SemReach limit n ts → SemStep limit ts ts' → SemReach limit n ts'

lemma countP_set_eq (p : TaskState → Bool) :
    ∀ (ts : List TaskState) (i : Nat) (a b : TaskState), ts[i]? = some a →
      (ts.set i b).countP p + (if p a then 1 else 0) =
        ts.countP p + (if p b then 1 else 0) := by
  intro ts
  induction ts with
  | nil => intro i a b h; simp at h
  | cons x xs ih =>
    intro i a b h
    cases i with
    | zero =>
      simp only [List.getElem?_cons_zero, Option.some.injEq] at h
      subst h
      simp only [List.set_cons_zero, List.countP_cons]
      cases hpx : p x <;> cases hpb : p b <;> simp [hpx, hpb]
    | succ j =>
      simp only [List.getElem?_cons_succ] at h
      have hrec := ih j a b h
      simp only [List.set_cons_succ, List.countP_cons]
      cases hpx : p x <;> simp [hpx] <;> omega

lemma countP_replicate_pending (p : TaskState → Bool) (hp : p TaskState.pending = false) :
    ∀ n, (List.replicate n TaskState.pending).countP p = 0 := by
  intro n
  induction n with
  | zero => simp
  | succ m ih => simp [List.replicate_succ, List.countP_cons, hp, ih]

lemma semReach_holders_le (limit n : Nat) :
    ∀ ts, SemReach limit n ts → ts.countP holdsSem ≤ limit := by
  intro ts h
  induction h with
  | init => simp [countP_replicate_pending holdsSem rfl n]
  | step ts ts' hr hs ih =>
    cases hs with
    | start i hp hc =>
      have hcount := countP_set_eq holdsSem ts i TaskState.pending TaskState.requesting hp
      simp [holdsSem] at hcount
      omega
    | toSleep i hp =>
      have hcount := countP_set_eq holdsSem ts i TaskState.requesting TaskState.sleeping hp
      simp [holdsSem] at hcount
      omega
    | wake i hp =>
      have hcount := countP_set_eq holdsSem ts i TaskState.sleeping TaskState.requesting hp
      simp [holdsSem] at hcount
      omega
    | finish i hp =>
      have hcount := countP_set_eq holdsSem ts i TaskState.requesting TaskState.done hp
      simp [holdsSem] at hcount
      omega

/-- C8: in every state reachable by the semaphore-guarded batch tasks, at most
`limit` tasks hold the admission semaphore; every HTTP request is issued while
holding it, so at no point are more than `limit` requests in flight —
excess tasks stay pending until a holder finishes and frees a slot. -/
theorem batch_concurrency_bounded (limit n : Nat) (ts : List TaskState)
    (h : SemReach limit n ts) :
    ts.countP inFlight ≤ ts.countP holdsSem ∧
    ts.countP holdsSem ≤ limit ∧
    ts.countP inFlight ≤ limit := by
  have h2 := semReach_holders_le limit n ts h
  have h1 : ts.countP inFlight ≤ ts.countP holdsSem := by
    apply List.countP_mono_left
    intro a _ ha
    cases a <;> simp_all [inFlight, holdsSem]
  exact ⟨h1, h2, le_trans h1 h2⟩

/-- Witness for C8: ten tasks under limit 5, after two of them enter the
semaphore, have at most 5 requests in flight. -/
theorem batch_concurrency_bounded_witness :
    ((List.replicate 10 TaskState.pending).set 0 TaskState.requesting).countP
      inFlight ≤ 5 :=
  (batch_concurrency_bounded 5 10 _
    (SemReach.step _ _ SemReach.init
      (SemStep.start _ 0 (by decide) (by decide)))).2.2

/-- What `fetch_epics_sync` (jira_async.py lines 149-201) hands back to its
caller: an actual result dictionary, or the unawaited `asyncio.Task` object
produced by `asyncio.create_task` when an event loop is already running. -/
inductive SyncReturn (α : Type) where
  | dict (d : List (String × Option α))
  | taskObject
deriving DecidableEq, Repr

/-- `fetch_epics_sync` (jira_async.py lines 149-201): an empty key list
returns `{}` before any event-loop check; otherwise, with a running loop
(`asyncio.get_running_loop()` succeeds) it returns `asyncio.create_task(...)`
— a Task object, not a dict — and with no running loop (`RuntimeError`) it
runs the batch coroutine to completion via `asyncio.run`. -/
def fetch_epics_sync {α : Type} (att : String → Nat → AttemptOutcome α)
    (keys : List String) (loopRunning : Bool) : SyncReturn α :=
  if keys.isEmpty then .dict []
  else if loopRunning then .taskObject
  else .dict (fetch_epic_batch_async att keys)

/-- `fetch_issues_sync` (jira_async.py lines 241-262) delegates to
`fetch_epics_sync`. -/
def fetch_issues_sync {α : Type} (att : String → Nat → AttemptOutcome α)
    (keys : List String) (loopRunning : Bool) : SyncReturn α :=
  fetch_epics_sync att keys loopRunning

/-- C9 counterexample: called with an empty key list from within a running
event loop, `fetch_epics_sync` returns the dictionary `{}` — not a Task
object — because the `if not epic_keys: return {}` guard runs before the
event-loop check, refuting the claim's unconditional "when called from within
a running event loop, it instead returns an unawaited asyncio Task object". -/
theorem fetch_epics_sync_empty_in_loop_cex :
    fetch_epics_sync (fun _ _ => AttemptOutcome.resp 200 (0 : Nat)) [] true =
      SyncReturn.dict [] ∧
    fetch_epics_sync (fun _ _ => AttemptOutcome.resp 200 (0 : Nat)) [] true ≠
      SyncReturn.taskObject := by
  decide

/-- C9 amended: for every nonempty key list, `fetch_epics_sync` (and its
delegate `fetch_issues_sync`) returns the documented id-to-payload dictionary
only when no event loop is running at call time; called from within a running
loop it returns an unawaited Task object instead, so the documented return
type does not hold on that path.  An empty key list returns `{}` regardless. -/
theorem fetch_epics_sync_task_in_loop {α : Type}
    (att : String → Nat → AttemptOutcome α) (keys : List String)
    (hne : keys ≠ []) :
    fetch_epics_sync att keys true = SyncReturn.taskObject ∧
    fetch_epics_sync att keys false =
      SyncReturn.dict (fetch_epic_batch_async att keys) ∧
    fetch_issues_sync att keys true = SyncReturn.taskObject ∧
    fetch_epics_sync att [] true = SyncReturn.dict [] := by
  have h : keys.isEmpty = false := by
    cases keys with
    | nil => exact absurd rfl hne
    | cons x xs => rfl
  refine ⟨?_, ?_, ?_, rfl⟩ <;> simp [fetch_epics_sync, fetch_issues_sync, h]

/-- Witness for C9 amended: a single-key batch called inside a running loop
yields a Task object. -/
theorem fetch_epics_sync_task_in_loop_witness :
    fetch_epics_sync (fun _ _ => AttemptOutcome.resp 200 (0 : Nat)) ["X"] true =
      SyncReturn.taskObject :=
  (fetch_epics_sync_task_in_loop (fun _ _ => AttemptOutcome.resp 200 (0 : Nat))
    ["X"] (by decide)).1

/-- SSL context built by jira_async.py lines 70-80: `ssl_verify = False`
yields a no-verify context (`check_hostname = False`, `CERT_NONE`), a string
yields a custom-CA context loaded from that file. -/
inductive SslContext where
  | insecure
  | customCa (file : String)
deriving DecidableEq, Repr

/-- The `ssl_verify` argument accepted by the async fetchers: `True`,
`False`, a CA-bundle path string, or `None`. -/
inductive SslVerifyArg where
  | tru
  | fls
  | caFile (p : String)
  | noneArg
deriving DecidableEq, Repr

/-- The `ssl_context` assignment of jira_async.py lines 70-80. -/
def buildSslContext : SslVerifyArg → Option SslContext
  | .fls => some .insecure
  | .caFile p => some (.customCa p)
  | _ => none

/-- Everything `fetch_epic_batch_async` actually passes to aiohttp: the
session configuration (auth, connector limits, timeout — lines 83, 89, 127,
129-133) and, per key, the `session.get` call's url, joined fields parameter
and ssl argument (lines 93-94, 99). -/
structure RequestPlan where
  authUser : String
  authPass : String
  connectorLimit : Nat
  connectorLimitPerHost : Nat
  timeoutTotal : Nat
  timeoutConnect : Nat
  timeoutSockRead : Nat
  sessionSsl : Option SslContext
  requests : List (String × String × Option SslContext)
deriving DecidableEq, Repr

/-- The observable HTTP configuration of `fetch_epic_batch_async` (jira_async
lines 63-143) as a function of its arguments.  The SSL context is computed
(lines 70-80) but the `if ssl_context:` block at lines 134-139 contains only
`pass`, and `session.get(url, params=params, timeout=timeout)` at line 99
passes no ssl argument, so neither the session nor any request carries it. -/
def batchRequestPlan (jiraUrl : String) (keys : List String)
    (auth : String × String) (sslVerify : SslVerifyArg)
    (fields : Option (List String)) (maxConcurrent : Nat) : RequestPlan :=
  let fieldList := fields.getD ["summary", "parent", "issuelinks", "labels", "status"]
  let _sslContext := buildSslContext sslVerify
  { authUser := auth.1
    authPass := auth.2
    connectorLimit := maxConcurrent
    connectorLimitPerHost := maxConcurrent
    timeoutTotal := 15
    timeoutConnect := 10
    timeoutSockRead := 10
    sessionSsl := none
    requests := keys.map fun k =>
      (jiraUrl ++ "/rest/api/3/issue/" ++ k,
       String.intercalate "," fieldList, none) }

/-- C10: the `ssl_verify` argument has no effect on the HTTP requests issued
by `fetch_epic_batch_async`: for any two values (including `False` and a
custom CA path, whose computed contexts differ) the session configuration and
every per-request configuration are identical, with no SSL context attached
anywhere — library-default TLS verification applies uniformly. -/
theorem ssl_verify_no_effect (jiraUrl : String) (keys : List String)
    (auth : String × String) (fields : Option (List String))
    (maxConcurrent : Nat) (v1 v2 : SslVerifyArg) :
    batchRequestPlan jiraUrl keys auth v1 fields maxConcurrent =
      batchRequestPlan jiraUrl keys auth v2 fields maxConcurrent ∧
    (batchRequestPlan jiraUrl keys auth v1 fields maxConcurrent).sessionSsl =
      none ∧
    (∀ r ∈ (batchRequestPlan jiraUrl keys auth v1 fields maxConcurrent).requests,
      r.2.2 = none) ∧
    buildSslContext SslVerifyArg.fls ≠ buildSslContext SslVerifyArg.tru := by
  refine ⟨rfl, rfl, ?_, by decide⟩
  intro r hr
  simp only [batchRequestPlan, List.mem_map] at hr
  obtain ⟨k, _, rfl⟩ := hr
  rfl
